import Mathlib

set_option maxHeartbeats 1000000

/-!
Verification development for the task-orchestration engine in
`cursor_orchestrator_advanced.py` (claude_cursor_mcp).

The Python source is shallowly embedded: the SQLite task table becomes an
association list of rows keyed by task id, enum values become inductive
types carrying their stored representations, `datetime` timestamps become
opaque strings (they are only stored and compared for equality), and the
`asyncio` dispatch loop becomes an explicit step relation on an executor
state.  JSON `context` payloads are modelled as association lists of
string keys to scalar JSON values, which covers every context value this
codebase ever writes (`retry_of`, `retry_attempt`, `max_retries`,
`original_error`, `template_id`, `template_name`).
-/

namespace Orch

/-- `TaskStatus` enum (`class TaskStatus(Enum)`). -/
inductive TaskStatus
  | pending
  | running
  | completed
  | failed
  | cancelled
deriving DecidableEq, Repr

/-- The string stored in the `status` column (`TaskStatus.value` in Python). -/
def TaskStatus.value : TaskStatus → String
  | .pending => "pending"
  | .running => "running"
  | .completed => "completed"
  | .failed => "failed"
  | .cancelled => "cancelled"

/-- Reading a status string back (`TaskStatus(row[4])`); unknown strings raise
in Python, modelled as `none`. -/
def statusOfValue (s : String) : Option TaskStatus :=
  if s = "pending" then some .pending
  else if s = "running" then some .running
  else if s = "completed" then some .completed
  else if s = "failed" then some .failed
  else if s = "cancelled" then some .cancelled
  else none

/-- Terminal statuses: the check in `cancel_task`
(`task.status in [COMPLETED, FAILED, CANCELLED]`). -/
def TaskStatus.isTerminal : TaskStatus → Bool
  | .completed => true
  | .failed => true
  | .cancelled => true
  | _ => false

/-- `TaskPriority` enum. -/
inductive TaskPriority
  | low
  | medium
  | high
  | critical
deriving DecidableEq, Repr

/-- The integer stored in the `priority` column (`TaskPriority.value`). -/
def TaskPriority.value : TaskPriority → Nat
  | .low => 1
  | .medium => 2
  | .high => 3
  | .critical => 4

/-- Reading a priority integer back (`TaskPriority(row[5])`). -/
def priorityOfValue (n : Nat) : Option TaskPriority :=
  if n = 1 then some .low
  else if n = 2 then some .medium
  else if n = 3 then some .high
  else if n = 4 then some .critical
  else none

/-- `TaskPriority[priority.upper()]`: name-based lookup used by
`execute_cursor_task` and `create_task_from_template`. -/
def priorityOfName (p : String) : Option TaskPriority :=
  if p.toUpper = "LOW" then some .low
  else if p.toUpper = "MEDIUM" then some .medium
  else if p.toUpper = "HIGH" then some .high
  else if p.toUpper = "CRITICAL" then some .critical
  else none

/-- Scalar JSON values, enough for every `context` payload the code writes. -/
inductive JVal
  | s (v : String)
  | i (v : Int)
  | b (v : Bool)
  | null
deriving DecidableEq, Repr

/-- A Python dict with string keys, as an association list (unique keys are
maintained by `Ctx.setVal`, mirroring dict assignment). -/
abbrev Ctx := List (String × JVal)

/-- Dict read access (`d.get(k)`), returning the first binding. -/
def Ctx.getVal : Ctx → String → Option JVal
  | [], _ => none
  | p :: rest, k => if p.1 = k then some p.2 else Ctx.getVal rest k

/-- Dict assignment (`d[k] = v`): replace the first binding or append. -/
def Ctx.setVal : Ctx → String → JVal → Ctx
  | [], k, v => [(k, v)]
  | p :: rest, k, v => if p.1 = k then (k, v) :: rest else p :: Ctx.setVal rest k v

/-- The `Task` dataclass. -/
structure Task where
  id : String
  project_path : String
  description : String
  command : String
  status : TaskStatus
  priority : TaskPriority
  created_at : String
  started_at : Option String := none
  completed_at : Option String := none
  result : Option String := none
  error : Option String := none
  context : Option Ctx := none
deriving DecidableEq, Repr

/-- A row of the SQLite `tasks` table: enums are stored by value and the
context is serialized (here kept parsed: `json.loads` after `json.dumps` is
the identity on string-keyed JSON). -/
structure TaskRow where
  id : String
  project_path : String
  description : String
  command : String
  status : String
  priority : Nat
  created_at : String
  started_at : Option String
  completed_at : Option String
  result : Option String
  error : Option String
  context : Option Ctx
deriving DecidableEq, Repr

/-- The stored context column: `json.dumps(task.context) if task.context else
None`.  Python truthiness makes an empty dict store as NULL. -/
def normCtx : Option Ctx → Option Ctx
  | some c => if c = [] then none else some c
  | none => none

/-- Column encoding performed by `StateManager.save_task`. -/
def encodeTask (t : Task) : TaskRow :=
  { id := t.id
    project_path := t.project_path
    description := t.description
    command := t.command
    status := t.status.value
    priority := t.priority.value
    created_at := t.created_at
    started_at := t.started_at
    completed_at := t.completed_at
    result := t.result
    error := t.error
    context := normCtx t.context }

/-- Row decoding performed by `StateManager.get_task`. -/
def decodeRow (r : TaskRow) : Option Task :=
  (statusOfValue r.status).bind fun st =>
  (priorityOfValue r.priority).map fun pr =>
  { id := r.id
    project_path := r.project_path
    description := r.description
    command := r.command
    status := st
    priority := pr
    created_at := r.created_at
    started_at := r.started_at
    completed_at := r.completed_at
    result := r.result
    error := r.error
    context := r.context }

/-- `StateManager.save_task`: `INSERT OR REPLACE INTO tasks` keyed by id. -/
def save_task : List TaskRow → Task → List TaskRow
  | [], t => [encodeTask t]
  | r :: rs, t => if r.id = t.id then encodeTask t :: rs else r :: save_task rs t

/-- `StateManager.get_task`: `SELECT * FROM tasks WHERE id = ?`, decoded. -/
def get_task : List TaskRow → String → Option Task
  | [], _ => none
  | r :: rs, i => if r.id = i then decodeRow r else get_task rs i

theorem statusOfValue_value (st : TaskStatus) : statusOfValue st.value = some st := by
  cases st <;> decide

theorem priorityOfValue_value (pr : TaskPriority) :
    priorityOfValue pr.value = some pr := by
  cases pr <;> decide

theorem decodeRow_encodeTask (t : Task) :
    decodeRow (encodeTask t) = some { t with context := normCtx t.context } := by
  simp [decodeRow, encodeTask, statusOfValue_value, priorityOfValue_value]

theorem get_task_save_task_self (db : List TaskRow) (t : Task) :
    get_task (save_task db t) t.id = some { t with context := normCtx t.context } := by
  induction db with
  | nil =>
      simp [save_task, get_task, encodeTask, decodeRow_encodeTask,
        decodeRow, statusOfValue_value, priorityOfValue_value]
  | cons r rs ih =>
      by_cases h : r.id = t.id
      · simp [save_task, get_task, h, encodeTask,
          decodeRow, statusOfValue_value, priorityOfValue_value]
      · simp [save_task, get_task, h, ih]

theorem get_task_save_task_ne (db : List TaskRow) (t : Task) (i : String)
    (h : i ≠ t.id) : get_task (save_task db t) i = get_task db i := by
  have hti : t.id ≠ i := h.symm
  induction db with
  | nil => simp [save_task, get_task, encodeTask, hti]
  | cons r rs ih =>
      by_cases hr : r.id = t.id
      · simp [save_task, get_task, hr, encodeTask, hti]
      · have hsave : save_task (r :: rs) t = r :: save_task rs t := by
          simp [save_task, hr]
        rw [hsave]
        by_cases hi : r.id = i
        · simp [get_task, hi]
        · simp [get_task, hi, ih]

theorem get_task_not_mem (db : List TaskRow) (i : String)
    (h : ∀ r ∈ db, r.id ≠ i) : get_task db i = none := by
  induction db with
  | nil => rfl
  | cons r rs ih =>
      have hr : r.id ≠ i := h r (by simp)
      simp [get_task, hr]
      exact ih fun r' hr' => h r' (by simp [hr'])

theorem get_task_id (db : List TaskRow) (i : String) (t : Task)
    (h : get_task db i = some t) : t.id = i := by
  induction db with
  | nil => simp [get_task] at h
  | cons r rs ih =>
      by_cases hr : r.id = i
      · simp [get_task, hr] at h
        rcases Option.bind_eq_some.mp h with ⟨st, hst, h2⟩
        rcases Option.map_eq_some'.mp h2 with ⟨pr, hpr, h3⟩
        subst h3
        exact hr
      · simp [get_task, hr] at h
        exact ih h

theorem get_task_save_self_of_ctx (db : List TaskRow) (t : Task)
    (h : t.context ≠ some []) : get_task (save_task db t) t.id = some t := by
  have hn : normCtx t.context = t.context := by
    cases hc : t.context with
    | none => rfl
    | some c =>
        have hne : c ≠ [] := fun he => h (by rw [hc, he])
        simp [normCtx, hne]
  rw [get_task_save_task_self, hn]

/-- A sample task whose context is the empty dict. -/
def emptyCtxTask : Task :=
  { id := "t1"
    project_path := "/p"
    description := "d"
    command := "c"
    status := TaskStatus.pending
    priority := TaskPriority.medium
    created_at := "T0"
    context := some [] }

/-- C10 counterexample: a task whose `context` is the empty dict does not
survive the store round-trip — `save_task` stores the context column as NULL
(`json.dumps(task.context) if task.context else None` and `{}` is falsy), so
`get_task` returns the task with `context = None` instead of `{}`. -/
theorem c10_round_trip_counterexample :
    get_task (save_task [] emptyCtxTask) emptyCtxTask.id ≠ some emptyCtxTask := by
  decide

/-- C10 (amended): saving a task and getting it back by id returns a task
equal to the one saved — id, project path, description, command, status,
priority, all three timestamps, result, error and context all survive —
provided the context is `None` or a NON-empty dictionary; an empty-dict
context is stored as NULL and comes back as `None`.  Getting an id not
present in the store returns `None`. -/
theorem c10_store_round_trip (db : List TaskRow) (t : Task) (i : String)
    (hctx : t.context ≠ some []) (hfresh : ∀ r ∈ db, r.id ≠ i) :
    get_task (save_task db t) t.id = some t ∧ get_task db i = none :=
  ⟨get_task_save_self_of_ctx db t hctx, get_task_not_mem db i hfresh⟩

/-- C10 witness: the round-trip theorem applied at a concrete task with a
non-empty context and a store not containing id "zz". -/
theorem c10_store_round_trip_witness :
    get_task (save_task []
      { emptyCtxTask with context := some [("k", JVal.s "v")] })
      emptyCtxTask.id =
      some { emptyCtxTask with context := some [("k", JVal.s "v")] } ∧
    get_task ([] : List TaskRow) "zz" = none :=
  c10_store_round_trip [] _ "zz" (by decide) (by intro r hr; simp at hr)

theorem Ctx.getVal_setVal_self (c : Ctx) (k : String) (v : JVal) :
    (c.setVal k v).getVal k = some v := by
  induction c with
  | nil => simp [Ctx.setVal, Ctx.getVal]
  | cons p rest ih =>
      by_cases h : p.1 = k
      · simp [Ctx.setVal, Ctx.getVal, h]
      · simp [Ctx.setVal, Ctx.getVal, h, ih]

theorem Ctx.getVal_setVal_ne (c : Ctx) (k k' : String) (v : JVal)
    (h : k' ≠ k) : (c.setVal k v).getVal k' = c.getVal k' := by
  have hk : k ≠ k' := h.symm
  induction c with
  | nil => simp [Ctx.setVal, Ctx.getVal, hk]
  | cons p rest ih =>
      by_cases hp : p.1 = k
      · by_cases hp' : p.1 = k'
        · exact absurd (hp' ▸ hp) hk.symm
        · simp [Ctx.setVal, Ctx.getVal, hp, hp', hk]
      · simp [Ctx.setVal, Ctx.getVal, hp, ih]

/-- `Config.ALLOWED_PROJECT_PATHS` is `[]` in the source, so
`Config.validate_project_path` returns `True` for every path (the directory
checks below the early return are unreachable). -/
def validate_project_path (_path : String) : Bool := true

/-- `Config.MAX_CONCURRENT_TASKS`. -/
def Config.MAX_CONCURRENT_TASKS : Nat := 3

/-- `Config.TASK_TIMEOUT` (seconds). -/
def Config.TASK_TIMEOUT : Nat := 300

/-- Result of the `cancel_task` tool. -/
inductive CancelResult
  | notFound
  | alreadyTerminal (st : TaskStatus)
  | cancelled (requestedUnitCancel : Bool)
deriving DecidableEq, Repr

/-- `cancel_task(task_id)`: not-found and already-terminal guards, then a
best-effort `running_tasks[id].cancel()` request and an immediate persist of
status Cancelled with `completed_at` set.  `running` is the key set of
`task_executor.running_tasks`. -/
def cancel_task (db : List TaskRow) (running : List String)
    (task_id now : String) : CancelResult × List TaskRow :=
  match get_task db task_id with
  | none => (.notFound, db)
  | some t =>
    if t.status.isTerminal then (.alreadyTerminal t.status, db)
    else
      (.cancelled (running.contains task_id),
       save_task db { t with status := TaskStatus.cancelled, completed_at := some now })

/-- The `retry_attempt` recorded in a task's context
(`retry_context.get("retry_attempt", 0)`). -/
def prevRetryAttempt (t : Task) : Int :=
  match (t.context.getD []).getVal "retry_attempt" with
  | some (JVal.i n) => n
  | _ => 0

/-- Result of the `retry_task` tool. -/
inductive RetryResult
  | notFound
  | notFailed (st : TaskStatus)
  | invalidPath
  | limitExceeded
  | retried (t : Task)
deriving DecidableEq, Repr

/-- The retry context built by `retry_task`: a copy of the original context
with `retry_of`, `retry_attempt`, `max_retries` and `original_error` set. -/
def retryContext (orig : Task) (task_id : String) (attempt max_retries : Int) : Ctx :=
  ((((orig.context.getD []).setVal "retry_of" (JVal.s task_id)).setVal
      "retry_attempt" (JVal.i attempt)).setVal
      "max_retries" (JVal.i max_retries)).setVal
      "original_error" (match orig.error with
        | some e => JVal.s e
        | none => JVal.null)

/-- `retry_task(task_id, max_retries, retry_delay)`: requires the original to
exist and be Failed, builds the retry context, rejects once
`retry_attempt > max_retries`, otherwise creates and submits a brand-new
Pending task (`submit_task` saves it and enqueues it); the original row is
never written. -/
def retry_task (db : List TaskRow) (q : List Task) (task_id : String)
    (max_retries : Int) (new_id now : String) :
    RetryResult × List TaskRow × List Task :=
  match get_task db task_id with
  | none => (.notFound, db, q)
  | some orig =>
    if orig.status = TaskStatus.failed then
      if validate_project_path orig.project_path then
        let attempt : Int := prevRetryAttempt orig + 1
        if attempt > max_retries then (.limitExceeded, db, q)
        else
          let newTask : Task :=
            { id := new_id
              project_path := orig.project_path
              description := "[RETRY " ++ toString attempt ++ "/" ++
                toString max_retries ++ "] " ++ orig.description
              command := orig.command
              status := TaskStatus.pending
              priority := orig.priority
              created_at := now
              context := some (retryContext orig task_id attempt max_retries) }
          (.retried newTask, save_task db newTask, q ++ [newTask])
      else (.invalidPath, db, q)
    else (.notFailed orig.status, db, q)

/-- An `ExternalProgressRecord` as read from an `api_*.json` file. -/
structure ApiRecord where
  task_id : String
  status : String
  progress : Int
  message : String
  result : Option String
  error : Option String
deriving DecidableEq, Repr

/-- `APIFileMonitor.handle_api_update`: look the task up by the record's
`task_id` (a missing task is silently ignored), map the record status to a
task mutation — with NO check of the task's current status — and re-save. -/
def handle_api_update (db : List TaskRow) (rec : ApiRecord) (now : String) :
    List TaskRow :=
  match get_task db rec.task_id with
  | none => db
  | some t =>
    let t' :=
      if rec.status = "in_progress" then { t with status := TaskStatus.running }
      else if rec.status = "completed" then
        { t with status := TaskStatus.completed
                 completed_at := some now
                 result := some (rec.result.getD "Task completed") }
      else if rec.status = "failed" then
        { t with status := TaskStatus.failed
                 error := some (rec.error.getD "Unknown error") }
      else t
    save_task db t'

theorem retry_task_preserves_other (db : List TaskRow) (q : List Task)
    (tid : String) (mr : Int) (nid now : String) (hne : nid ≠ tid) :
    get_task (retry_task db q tid mr nid now).2.1 tid = get_task db tid := by
  cases hget : get_task db tid with
  | none => simp [retry_task, hget]
  | some orig =>
      by_cases hst : orig.status = TaskStatus.failed
      · by_cases hlim : prevRetryAttempt orig + 1 > mr
        · simp [retry_task, hget, hst, validate_project_path, hlim]
        · simp [retry_task, hget, hst, validate_project_path, hlim]
          have key : ∀ t : Task, t.id = nid →
              get_task (save_task db t) tid = get_task db tid := by
            intro t ht
            apply get_task_save_task_ne
            rw [ht]
            exact hne.symm
          rw [key _ rfl, hget]
      · simp [retry_task, hget, hst]

/-- A task already finalized as Failed. -/
def failedTask : Task :=
  { id := "t1"
    project_path := "/p"
    description := "d"
    command := "c"
    status := TaskStatus.failed
    priority := TaskPriority.high
    created_at := "T0"
    completed_at := some "T1"
    error := some "boom" }

/-- A late `completed` progress record for the failed task. -/
def lateCompletedRecord : ApiRecord :=
  { task_id := "t1"
    status := "completed"
    progress := 100
    message := "done"
    result := some "ok"
    error := none }

/-- C1 counterexample: terminal states are NOT absorbing.  A task whose
status is Failed, upon a later `completed` progress record for the same id,
is rewritten to Completed by `handle_api_update` — the claim says it must
keep status Failed. -/
theorem c1_counterexample :
    (get_task (save_task [] failedTask) "t1").map Task.status =
      some TaskStatus.failed ∧
    (get_task (handle_api_update (save_task [] failedTask)
        lateCompletedRecord "T2") "t1").map Task.status =
      some TaskStatus.completed := by
  decide

/-- C1 (amended): `cancel_task` does reject terminal tasks and `retry_task`
never writes the original row, but the progress channel does not respect
terminal states: `handle_api_update` applies a record to an existing task
regardless of the task's current status, so a `completed` record delivered
for a Failed (or otherwise terminal) task overwrites it to Completed with the
record's result — the late update is applied, not discarded. -/
theorem c1_terminal_states (db : List TaskRow) :
    (∀ running tid now t, get_task db tid = some t →
      t.status.isTerminal = true →
      cancel_task db running tid now = (.alreadyTerminal t.status, db)) ∧
    (∀ q tid mr nid now, nid ≠ tid →
      get_task (retry_task db q tid mr nid now).2.1 tid = get_task db tid) ∧
    (∀ rec now t, get_task db rec.task_id = some t →
      rec.status = "completed" → t.context ≠ some [] →
      get_task (handle_api_update db rec now) rec.task_id =
        some { t with status := TaskStatus.completed
                      completed_at := some now
                      result := some (rec.result.getD "Task completed") }) := by
  refine ⟨?_, ?_, ?_⟩
  · intro running tid now t hget hterm
    simp [cancel_task, hget, hterm]
  · intro q tid mr nid now hne
    exact retry_task_preserves_other db q tid mr nid now hne
  · intro rec now t hget hrec hctx
    have hid : t.id = rec.task_id := get_task_id db rec.task_id t hget
    rw [← hid]
    simp only [handle_api_update, hget, hrec]
    norm_num
    exact get_task_save_self_of_ctx db _ hctx

/-- C1 witness: the amended theorem applied to a store holding the sample
failed task — cancelling it is rejected, retrying elsewhere leaves it alone,
and the late `completed` record overwrites it. -/
theorem c1_terminal_states_witness :
    cancel_task (save_task [] failedTask) [] "t1" "T3" =
      (.alreadyTerminal TaskStatus.failed, save_task [] failedTask) ∧
    get_task (handle_api_update (save_task [] failedTask)
        lateCompletedRecord "T2") "t1" =
      some { failedTask with status := TaskStatus.completed
                             completed_at := some "T2"
                             result := some "ok" } := by
  constructor
  · exact (c1_terminal_states (save_task [] failedTask)).1 [] "t1" "T3"
      failedTask (by decide) (by decide)
  · exact (c1_terminal_states (save_task [] failedTask)).2.2
      lateCompletedRecord "T2" failedTask (by decide) (by decide) (by decide)

/-- A task still in the Pending state. -/
def pendingTask7 : Task :=
  { failedTask with id := "t7", status := TaskStatus.pending,
                    completed_at := none, error := none }

/-- An `in_progress` progress record for `pendingTask7`. -/
def inProgressRecord7 : ApiRecord :=
  { task_id := "t7", status := "in_progress", progress := 50,
    message := "working", result := none, error := none }

/-- C7 counterexample: an `in_progress` record is not a status no-op — it
sets an existing Pending task's status to Running. -/
theorem c7_counterexample :
    (get_task (save_task [] pendingTask7) "t7").map Task.status =
      some TaskStatus.pending ∧
    (get_task (handle_api_update (save_task [] pendingTask7)
        inProgressRecord7 "T2") "t7").map Task.status =
      some TaskStatus.running := by
  decide

/-- C7 (amended): for an `in_progress` record delivered for an existing task,
`handle_api_update` sets the task's status to Running — a real transition
whenever the task was not already Running — and persists it; the record's
progress percentage and message are only logged and forwarded to
subscribers, never stored on the task, and no other persisted field
changes. -/
theorem c7_in_progress_update (db : List TaskRow) (rec : ApiRecord)
    (now : String) (t : Task) (hget : get_task db rec.task_id = some t)
    (hrec : rec.status = "in_progress") (hctx : t.context ≠ some []) :
    get_task (handle_api_update db rec now) rec.task_id =
      some { t with status := TaskStatus.running } := by
  have hid : t.id = rec.task_id := get_task_id db rec.task_id t hget
  rw [← hid]
  simp only [handle_api_update, hget, hrec]
  norm_num
  exact get_task_save_self_of_ctx db _ hctx

/-- C7 witness: the amended theorem applied to the concrete Pending task and
`in_progress` record of the counterexample. -/
theorem c7_in_progress_update_witness :
    get_task (handle_api_update (save_task [] pendingTask7)
        inProgressRecord7 "T2") "t7" =
      some { pendingTask7 with status := TaskStatus.running } :=
  c7_in_progress_update _ _ "T2" _ (by decide) (by decide) (by decide)

/-- C6: `cancel_task` returns not-found for an absent id, already-terminal
for a Completed/Failed/Cancelled task (store untouched in both cases), and
otherwise requests cancellation of the running unit exactly when the id is in
the running set and immediately persists the task as Cancelled. -/
theorem c6_cancel_task_spec (db : List TaskRow) (running : List String)
    (tid now : String) :
    (get_task db tid = none → cancel_task db running tid now = (.notFound, db)) ∧
    (∀ t, get_task db tid = some t → t.status.isTerminal = true →
      cancel_task db running tid now = (.alreadyTerminal t.status, db)) ∧
    (∀ t, get_task db tid = some t → t.status.isTerminal = false →
      t.context ≠ some [] →
      (cancel_task db running tid now).1 = .cancelled (running.contains tid) ∧
      get_task (cancel_task db running tid now).2 tid =
        some { t with status := TaskStatus.cancelled, completed_at := some now }) := by
  refine ⟨?_, ?_, ?_⟩
  · intro hget
    simp [cancel_task, hget]
  · intro t hget hterm
    simp [cancel_task, hget, hterm]
  · intro t hget hterm hctx
    have hid : t.id = tid := get_task_id db tid t hget
    constructor
    · simp [cancel_task, hget, hterm]
    · simp only [cancel_task, hget, hterm]
      norm_num
      rw [← hid]
      exact get_task_save_self_of_ctx db _ hctx

/-- C6 witness: all three branches of the cancel specification exercised at
concrete inputs — an unknown id, the terminal sample task, and a Pending
task present in the running set. -/
theorem c6_cancel_task_spec_witness :
    cancel_task [] ["x"] "ghost" "T9" = (.notFound, []) ∧
    cancel_task (save_task [] failedTask) [] "t1" "T9" =
      (.alreadyTerminal TaskStatus.failed, save_task [] failedTask) ∧
    get_task (cancel_task (save_task []
        { pendingTask7 with id := "t6", status := TaskStatus.running })
        ["t6"] "t6" "T9").2 "t6" =
      some { pendingTask7 with id := "t6", status := TaskStatus.cancelled,
                               completed_at := some "T9" } := by
  refine ⟨?_, ?_, ?_⟩
  · exact (c6_cancel_task_spec [] ["x"] "ghost" "T9").1 (by decide)
  · exact (c6_cancel_task_spec (save_task [] failedTask) [] "t1" "T9").2.1
      failedTask (by decide) (by decide)
  · exact ((c6_cancel_task_spec (save_task []
      { pendingTask7 with id := "t6", status := TaskStatus.running })
      ["t6"] "t6" "T9").2.2
      { pendingTask7 with id := "t6", status := TaskStatus.running }
      (by decide) (by decide) (by decide)).2

/-- C5: `retry_task` rejects any original that is not Failed; when the
original is Failed it either rejects with the retry-limit error as soon as
the incremented attempt exceeds `max_retries` (creating nothing), or creates
and submits a brand-new Pending task with a fresh id that copies the
original's command, project path and priority, whose context records
`retry_of = original id` and `retry_attempt = previous attempt + 1`
(so 1 for a first retry); in every case the original task's row is never
mutated. -/
theorem c5_retry_task_spec (db : List TaskRow) (q : List Task)
    (tid : String) (mr : Int) (nid now : String) (orig : Task)
    (hget : get_task db tid = some orig) :
    (orig.status ≠ TaskStatus.failed →
      retry_task db q tid mr nid now = (.notFailed orig.status, db, q)) ∧
    (orig.status = TaskStatus.failed → prevRetryAttempt orig + 1 > mr →
      retry_task db q tid mr nid now = (.limitExceeded, db, q)) ∧
    (orig.status = TaskStatus.failed → prevRetryAttempt orig + 1 ≤ mr →
      ∃ nt, (retry_task db q tid mr nid now).1 = RetryResult.retried nt ∧
        nt.id = nid ∧
        nt.command = orig.command ∧
        nt.project_path = orig.project_path ∧
        nt.priority = orig.priority ∧
        nt.status = TaskStatus.pending ∧
        (nt.context.getD []).getVal "retry_of" = some (JVal.s tid) ∧
        (nt.context.getD []).getVal "retry_attempt" =
          some (JVal.i (prevRetryAttempt orig + 1)) ∧
        (retry_task db q tid mr nid now).2.1 = save_task db nt ∧
        (retry_task db q tid mr nid now).2.2 = q ++ [nt]) ∧
    (nid ≠ tid → get_task (retry_task db q tid mr nid now).2.1 tid = some orig) := by
  refine ⟨?_, ?_, ?_, ?_⟩
  · intro hst
    simp [retry_task, hget, hst]
  · intro hst hlim
    simp [retry_task, hget, hst, validate_project_path, hlim]
  · intro hst hlim
    have hlim' : ¬ prevRetryAttempt orig + 1 > mr := not_lt.mpr hlim
    refine ⟨{ id := nid
              project_path := orig.project_path
              description := "[RETRY " ++ toString (prevRetryAttempt orig + 1) ++
                "/" ++ toString mr ++ "] " ++ orig.description
              command := orig.command
              status := TaskStatus.pending
              priority := orig.priority
              created_at := now
              context := some (retryContext orig tid (prevRetryAttempt orig + 1) mr) },
      ?_, rfl, rfl, rfl, rfl, rfl, ?_, ?_, ?_, ?_⟩
    · simp [retry_task, hget, hst, validate_project_path, hlim']
    · show (retryContext orig tid (prevRetryAttempt orig + 1) mr).getVal
        "retry_of" = some (JVal.s tid)
      unfold retryContext
      rw [Ctx.getVal_setVal_ne _ _ _ _ (by decide),
        Ctx.getVal_setVal_ne _ _ _ _ (by decide),
        Ctx.getVal_setVal_ne _ _ _ _ (by decide),
        Ctx.getVal_setVal_self]
    · show (retryContext orig tid (prevRetryAttempt orig + 1) mr).getVal
        "retry_attempt" = some (JVal.i (prevRetryAttempt orig + 1))
      unfold retryContext
      rw [Ctx.getVal_setVal_ne _ _ _ _ (by decide),
        Ctx.getVal_setVal_ne _ _ _ _ (by decide),
        Ctx.getVal_setVal_self]
    · simp [retry_task, hget, hst, validate_project_path, hlim']
    · simp [retry_task, hget, hst, validate_project_path, hlim']
  · intro hne
    rw [retry_task_preserves_other db q tid mr nid now hne, hget]

/-- A failed original task for the retry witness. -/
def origRetry : Task :=
  { id := "r1"
    project_path := "/p"
    description := "d"
    command := "c"
    status := TaskStatus.failed
    priority := TaskPriority.high
    created_at := "T0"
    error := some "boom" }

/-- The store holding the failed original. -/
def retryDb : List TaskRow := save_task [] origRetry

/-- C5 witness: retrying the concrete failed task "r1" with max_retries 3
creates a new Pending task "r2" copying command, project path and priority,
with `retry_of = "r1"` and `retry_attempt = 1`, while the original row is
returned unchanged by a fresh lookup. -/
theorem c5_retry_task_spec_witness :
    (∃ nt, (retry_task retryDb [] "r1" 3 "r2" "T9").1 = RetryResult.retried nt ∧
      nt.id = "r2" ∧
      nt.command = origRetry.command ∧
      nt.project_path = origRetry.project_path ∧
      nt.priority = origRetry.priority ∧
      nt.status = TaskStatus.pending ∧
      (nt.context.getD []).getVal "retry_of" = some (JVal.s "r1") ∧
      (nt.context.getD []).getVal "retry_attempt" =
        some (JVal.i (prevRetryAttempt origRetry + 1)) ∧
      (retry_task retryDb [] "r1" 3 "r2" "T9").2.1 = save_task retryDb nt ∧
      (retry_task retryDb [] "r1" 3 "r2" "T9").2.2 = [] ++ [nt]) ∧
    get_task (retry_task retryDb [] "r1" 3 "r2" "T9").2.1 "r1" = some origRetry := by
  have h := c5_retry_task_spec retryDb [] "r1" 3 "r2" "T9" origRetry (by decide)
  exact ⟨h.2.2.1 (by decide) (by decide), h.2.2.2 (by decide)⟩

/-- Ids of the rows of a store. -/
def rowIds (db : List TaskRow) : List String := db.map (·.id)

/-- The `tasks` table has `id TEXT PRIMARY KEY`: keys are unique. -/
def keysNodup (db : List TaskRow) : Prop := (rowIds db).Nodup

theorem rowIds_cons (r : TaskRow) (rs : List TaskRow) :
    rowIds (r :: rs) = r.id :: rowIds rs := rfl

theorem mem_rowIds_save (db : List TaskRow) (t : Task) (x : String)
    (h : x ∈ rowIds (save_task db t)) : x = t.id ∨ x ∈ rowIds db := by
  induction db with
  | nil =>
      rcases List.mem_cons.mp h with h' | h'
      · exact Or.inl h'
      · simp at h'
  | cons r rs ih =>
      by_cases hr : r.id = t.id
      · have hsave : save_task (r :: rs) t = encodeTask t :: rs := by
          simp [save_task, hr]
        rw [hsave, rowIds_cons] at h
        rcases List.mem_cons.mp h with h' | h'
        · exact Or.inl h'
        · exact Or.inr (by rw [rowIds_cons]; exact List.mem_cons_of_mem _ h')
      · have hsave : save_task (r :: rs) t = r :: save_task rs t := by
          simp [save_task, hr]
        rw [hsave, rowIds_cons] at h
        rcases List.mem_cons.mp h with h' | h'
        · exact Or.inr (by rw [rowIds_cons, h']; exact List.mem_cons_self _ _)
        · rcases ih h' with h'' | h''
          · exact Or.inl h''
          · exact Or.inr (by rw [rowIds_cons]; exact List.mem_cons_of_mem _ h'')

theorem keysNodup_save (db : List TaskRow) (t : Task) (h : keysNodup db) :
    keysNodup (save_task db t) := by
  induction db with
  | nil => simp [save_task, keysNodup, rowIds]
  | cons r rs ih =>
      obtain ⟨hnm, hnd⟩ := List.nodup_cons.mp (show (r.id :: rowIds rs).Nodup from h)
      by_cases hr : r.id = t.id
      · have hsave : save_task (r :: rs) t = encodeTask t :: rs := by
          simp [save_task, hr]
        unfold keysNodup
        rw [hsave, rowIds_cons]
        refine List.nodup_cons.mpr ⟨?_, hnd⟩
        show ¬ t.id ∈ rowIds rs
        rw [← hr]
        exact hnm
      · have hsave : save_task (r :: rs) t = r :: save_task rs t := by
          simp [save_task, hr]
        unfold keysNodup
        rw [hsave, rowIds_cons]
        refine List.nodup_cons.mpr ⟨?_, ih hnd⟩
        intro hmem
        rcases mem_rowIds_save rs t r.id hmem with h' | h'
        · exact hr h'
        · exact hnm h'

theorem mem_save_of_nodup (db : List TaskRow) (t : Task) (r' : TaskRow)
    (hnd : keysNodup db) (h : r' ∈ save_task db t) :
    r' = encodeTask t ∨ (r' ∈ db ∧ r'.id ≠ t.id) := by
  induction db with
  | nil =>
      rcases List.mem_cons.mp h with h' | h'
      · exact Or.inl h'
      · simp at h'
  | cons r rs ih =>
      obtain ⟨hnm, hnd'⟩ :=
        List.nodup_cons.mp (show (r.id :: rowIds rs).Nodup from hnd)
      by_cases hr : r.id = t.id
      · have hsave : save_task (r :: rs) t = encodeTask t :: rs := by
          simp [save_task, hr]
        rw [hsave] at h
        rcases List.mem_cons.mp h with h' | h'
        · exact Or.inl h'
        · refine Or.inr ⟨List.mem_cons_of_mem _ h', ?_⟩
          intro hid
          apply hnm
          show r.id ∈ rowIds rs
          rw [hr, ← hid]
          exact List.mem_map_of_mem (·.id) h'
      · have hsave : save_task (r :: rs) t = r :: save_task rs t := by
          simp [save_task, hr]
        rw [hsave] at h
        rcases List.mem_cons.mp h with h' | h'
        · exact Or.inr ⟨by rw [h']; exact List.mem_cons_self _ _, by rw [h']; exact hr⟩
        · rcases ih hnd' h' with h'' | h''
          · exact Or.inl h''
          · exact Or.inr ⟨List.mem_cons_of_mem _ h''.1, h''.2⟩

/-- Number of rows whose persisted status is `running`. -/
def runningCount (db : List TaskRow) : Nat :=
  (db.filter (fun r => r.status == "running")).length

/-- State of `TaskExecutor`: the persistent store, the `asyncio.Queue`
(strictly FIFO: `put` appends, `get` takes the head), and the key set of
the `running_tasks` dict. -/
structure ExecState where
  db : List TaskRow
  queue : List Task
  running : List String

/-- One step of the orchestrator, as the code interleaves them.

* `submit` — `submit_task`: persist the Pending task and `queue.put` it.
* `dispatch` — one round of `process_queue`: take the queue head, but only
  once `len(running_tasks) < MAX_CONCURRENT_TASKS`; start the execution unit
  (which immediately persists status Running with `started_at`) and record it
  in the running set.
* `finish` — the tail of `execute_task`: persist the finished task with a
  terminal status and delete the id from `running_tasks`.

External progress records (`handle_api_update`) are outside this relation:
the claim quantifies over submission bursts handled by the queue
processor. -/
inductive Step : ExecState → ExecState → Prop
  | submit (s : ExecState) (t : Task) (hst : t.status = TaskStatus.pending) :
      Step s ⟨save_task s.db t, s.queue ++ [t], s.running⟩
  | dispatch (s : ExecState) (t : Task) (rest : List Task) (now : String)
      (hq : s.queue = t :: rest)
      (hcap : s.running.length < Config.MAX_CONCURRENT_TASKS) :
      Step s ⟨save_task s.db
          { t with status := TaskStatus.running, started_at := some now },
        rest, t.id :: s.running⟩
  | finish (s : ExecState) (t : Task)
      (hmem : t.id ∈ s.running)
      (hterm : t.status.isTerminal = true) :
      Step s ⟨save_task s.db t, s.queue, s.running.erase t.id⟩

/-- Reachability through dispatcher steps. -/
inductive Reach : ExecState → ExecState → Prop
  | refl (s : ExecState) : Reach s s
  | tail {s t u : ExecState} : Reach s t → Step t u → Reach s u

/-- Inductive invariant: unique row keys, the running set within the cap,
and every row with status `running` tracked in the running set. -/
def DispatchInv (s : ExecState) : Prop :=
  keysNodup s.db ∧
  s.running.length ≤ Config.MAX_CONCURRENT_TASKS ∧
  ∀ r ∈ s.db, r.status = "running" → r.id ∈ s.running

theorem dispatchInv_step {s s' : ExecState} (hinv : DispatchInv s)
    (hstep : Step s s') : DispatchInv s' := by
  obtain ⟨hnd, hcap, hrun⟩ := hinv
  cases hstep with
  | submit t hst =>
      refine ⟨keysNodup_save s.db t hnd, hcap, ?_⟩
      intro r hr hrst
      rcases mem_save_of_nodup s.db t r hnd hr with h | h
      · rw [h] at hrst
        simp only [encodeTask] at hrst
        rw [hst] at hrst
        exact absurd hrst (by decide)
      · exact hrun r h.1 hrst
  | dispatch t rest now hq hcap' =>
      refine ⟨keysNodup_save s.db _ hnd, Nat.succ_le_of_lt hcap', ?_⟩
      intro r hr hrst
      rcases mem_save_of_nodup s.db _ r hnd hr with h | h
      · rw [h]
        exact List.mem_cons_self _ _
      · exact List.mem_cons_of_mem _ (hrun r h.1 hrst)
  | finish t hmem hterm =>
      refine ⟨keysNodup_save s.db t hnd, ?_, ?_⟩
      · exact le_trans (List.length_erase_le _ _) hcap
      · intro r hr hrst
        rcases mem_save_of_nodup s.db t r hnd hr with h | h
        · rw [h] at hrst
          simp only [encodeTask] at hrst
          cases hstt : t.status <;> rw [hstt] at hrst hterm <;>
            simp [TaskStatus.value, TaskStatus.isTerminal] at hrst hterm
        · exact (List.mem_erase_of_ne h.2).mpr (hrun r h.1 hrst)

theorem runningCount_le_of_inv (s : ExecState) (hinv : DispatchInv s) :
    runningCount s.db ≤ s.running.length := by
  obtain ⟨hnd, _, hrun⟩ := hinv
  have h1 : runningCount s.db =
      ((s.db.filter (fun r => r.status == "running")).map (·.id)).length := by
    simp [runningCount]
  rw [h1]
  have hsubl : List.Sublist
      ((s.db.filter (fun r => r.status == "running")).map (·.id))
      (rowIds s.db) :=
    (List.filter_sublist _).map _
  have hnodup : ((s.db.filter (fun r => r.status == "running")).map (·.id)).Nodup :=
    List.Nodup.sublist hsubl hnd
  have hsub : ((s.db.filter (fun r => r.status == "running")).map (·.id)) ⊆
      s.running := by
    intro x hx
    rcases List.mem_map.mp hx with ⟨r, hr, hid⟩
    rcases List.mem_filter.mp hr with ⟨hmem, hst⟩
    exact hid ▸ hrun r hmem (by simpa using hst)
  exact (hnodup.subperm hsub).length_le

theorem dispatchInv_reach {s₀ s : ExecState} (h₀ : DispatchInv s₀)
    (h : Reach s₀ s) : DispatchInv s := by
  induction h with
  | refl => exact h₀
  | tail hr hstep ih => exact dispatchInv_step ih hstep

/-- C3: starting from an empty system, under any interleaving of submission
bursts, dispatches and completions, the number of tasks whose persisted
status is Running never exceeds `Config.MAX_CONCURRENT_TASKS` (3): the queue
processor (`process_queue`) starts a new execution unit only after observing
`len(running_tasks) < MAX_CONCURRENT_TASKS`, and every Running row belongs to
a tracked execution unit. -/
theorem c3_running_bounded (s : ExecState)
    (h : Reach ⟨[], [], []⟩ s) :
    runningCount s.db ≤ Config.MAX_CONCURRENT_TASKS ∧
    s.running.length ≤ Config.MAX_CONCURRENT_TASKS := by
  have h₀ : DispatchInv ⟨[], [], []⟩ := by
    refine ⟨by simp [keysNodup, rowIds], by simp [Config.MAX_CONCURRENT_TASKS], ?_⟩
    intro r hr
    simp at hr
  have hinv := dispatchInv_reach h₀ h
  exact ⟨le_trans (runningCount_le_of_inv s hinv) hinv.2.1, hinv.2.1⟩

/-- C3 witness: the bound applied to the initial state itself. -/
theorem c3_running_bounded_witness :
    runningCount ([] : List TaskRow) ≤ Config.MAX_CONCURRENT_TASKS ∧
    ([] : List String).length ≤ Config.MAX_CONCURRENT_TASKS :=
  c3_running_bounded ⟨[], [], []⟩ (Reach.refl _)

/-- `asyncio.Queue.put`: append at the tail (FIFO). -/
def Queue.put (q : List Task) (t : Task) : List Task := q ++ [t]

/-- A burst of submissions: `submit_task` saves each task and `put`s it on
the queue in submission order. -/
def submitAll (q : List Task) (ts : List Task) : List Task := ts.foldl Queue.put q

/-- The order in which `process_queue` starts tasks: it repeatedly awaits
`task_queue.get()` — the FIFO head — and starts that task once capacity
allows; the capacity wait delays but never reorders, as there is a single
consumer of the queue. -/
def drainOrder : List Task → List String
  | [] => []
  | t :: rest => t.id :: drainOrder rest

/-- Lexicographic less-or-equal on the character data of two strings;
ISO-8601 timestamps compare chronologically this way. -/
def strLeChars : List Char → List Char → Bool
  | [], _ => true
  | _ :: _, [] => false
  | a :: as, b :: bs => if a = b then strLeChars as bs else decide (a < b)

/-- String comparison for `created_at` timestamps. -/
def strLe (a b : String) : Bool := strLeChars a.data b.data

/-- Modelled from the spec: "compare priority descending; on equal priority,
earlier `created_at` wins (strict FIFO within a priority band)".  `u` keeps
its place before a newly inserted `t` when it has strictly higher priority,
or equal priority and an earlier-or-equal creation time. -/
def specKeepsBefore (u t : Task) : Bool :=
  (decide (t.priority.value < u.priority.value)) ||
  ((u.priority.value == t.priority.value) && strLe u.created_at t.created_at)

/-- Modelled from the spec: stable insertion into the priority order. -/
def specInsert (t : Task) : List Task → List Task
  | [] => [t]
  | u :: rest => if specKeepsBefore u t then u :: specInsert t rest else t :: u :: rest

/-- Modelled from the spec: the dispatch order the claim asserts — priority
descending, creation time ascending within a band. -/
def specDispatchOrder (ts : List Task) : List String :=
  (ts.foldl (fun acc t => specInsert t acc) []).map (·.id)

/-- A queued sample task. -/
def qtask (i : String) (p : TaskPriority) (c : String) : Task :=
  { id := i
    project_path := "/p"
    description := "d"
    command := "c"
    status := TaskStatus.pending
    priority := p
    created_at := c }

/-- The four tasks of the claim: priorities [Low, High, Medium, High]
submitted at times t1 < t2 < t3 < t4. -/
def burst4 : List Task :=
  [qtask "task1" TaskPriority.low "t1", qtask "task2" TaskPriority.high "t2",
   qtask "task3" TaskPriority.medium "t3", qtask "task4" TaskPriority.high "t4"]

/-- C2 counterexample: `TaskExecutor.task_queue` is a plain `asyncio.Queue`,
so the four tasks are dispatched in submission order [task1, task2, task3,
task4] — not in the claimed priority order [task2, task4, task3, task1]
(which is what the spec's tie-break rule, modelled alongside, would give). -/
theorem c2_counterexample :
    drainOrder (submitAll [] burst4) = ["task1", "task2", "task3", "task4"] ∧
    specDispatchOrder burst4 = ["task2", "task4", "task3", "task1"] ∧
    (["task1", "task2", "task3", "task4"] : List String) ≠
      ["task2", "task4", "task3", "task1"] := by
  refine ⟨by decide, by decide, by decide⟩

theorem submitAll_eq (q ts : List Task) : submitAll q ts = q ++ ts := by
  induction ts generalizing q with
  | nil => simp [submitAll]
  | cons t rest ih =>
      show submitAll (Queue.put q t) rest = q ++ t :: rest
      rw [ih, Queue.put]
      simp

/-- C2 (amended): queued tasks are dispatched in plain FIFO submission
order, ignoring priority entirely — the queue is an `asyncio.Queue` and
`process_queue` always takes the head.  For the four tasks submitted with
priorities [Low, High, Medium, High] at t1 < t2 < t3 < t4 the dispatch order
is [task1, task2, task3, task4].  (Priority-descending, creation-ascending
ordering exists only in the `get_project_tasks` listing query, not in
dispatch.) -/
theorem c2_fifo_dispatch (ts : List Task) :
    drainOrder (submitAll [] ts) = ts.map (·.id) ∧
    drainOrder (submitAll [] burst4) = ["task1", "task2", "task3", "task4"] := by
  constructor
  · rw [submitAll_eq]
    simp only [List.nil_append]
    induction ts with
    | nil => rfl
    | cons t rest ih => simp [drainOrder, ih]
  · decide

/-- The result dict of `CursorInterface.execute_command`. -/
structure ExecResult where
  success : Bool
  mode : Option String := none
  task_file : Option String := none
  api_file : Option String := none
  message : Option String := none
  error : Option String := none
deriving DecidableEq, Repr

/-- `CursorInterface.execute_command(project_path, command, timeout,
task_id)`.  The `timeout` parameter is received but NEVER read in the body:
the only bounded wait inside uses a hardcoded 10-second budget for opening
the editor.  Every supported mode returns `success: True` immediately; only
an unsupported `CURSOR_MODE` yields `success: False`.  (The `except` fallback
that reports a filesystem error as `success: False` with `str(e)` is outside
this embedding.) -/
def execute_command (mode project_path command : String) (timeout : Nat)
    (task_id : String) : ExecResult :=
  if mode = "instruction" then
    { success := true
      mode := some "instruction"
      task_file := some (project_path ++ "/.cursor-tasks/task_" ++ task_id ++ ".md")
      message := some ("Task file created: task_" ++ task_id ++
        ".md. Project opened in Cursor.") }
  else if mode = "mock" then
    { success := true
      mode := some "mock"
      message := some "Task simulated successfully (mock mode)" }
  else if mode = "auto" then
    { success := true
      mode := some "auto"
      task_file := some (project_path ++ "/.cursor-tasks/task_" ++ task_id ++ ".md")
      message := some ("Auto-execute task created: task_" ++ task_id ++
        ".md. Use Cmd+K in Cursor to execute.") }
  else if mode = "api" then
    { success := true
      mode := some "api"
      task_file := some (project_path ++ "/.cursor-tasks/task_" ++ task_id ++ ".md")
      api_file := some (project_path ++ "/.cursor-tasks/api_" ++ task_id ++ ".json")
      message := some ("API communication established. Task: task_" ++ task_id ++
        ".md, API: api_" ++ task_id ++ ".json. Monitoring for updates...") }
  else
    { success := false
      error := some ("Unsupported CURSOR_MODE: " ++ mode) }

/-- Python truthiness of an optional string: empty string is falsy. -/
def truthyStr : Option String → Option String
  | some s => if s = "" then none else some s
  | none => none

/-- The `a or b or dflt` chain of Python. -/
def pyFirst (a b : Option String) (dflt : String) : String :=
  match truthyStr a with
  | some s => s
  | none =>
    match truthyStr b with
    | some s => s
    | none => dflt

/-- `json.dumps` of a plain string: wrap in quotes (none of the messages the
code produces contain characters `dumps` escapes). -/
def jsonDumpsStr (s : String) : String := "\"" ++ s ++ "\""

/-- `TaskExecutor.execute_task`: mark Running with `started_at`, persist,
invoke `execute_command` with `timeout=Config.TASK_TIMEOUT`, then finalize —
Completed with `result = json.dumps(message or result or "Success")` on
success, Failed with the reported error otherwise — and persist again. -/
def execute_task (mode : String) (db : List TaskRow) (t : Task)
    (startNow endNow : String) : Task × List TaskRow :=
  let t₁ := { t with status := TaskStatus.running, started_at := some startNow }
  let db₁ := save_task db t₁
  let r := execute_command mode t.project_path t.command Config.TASK_TIMEOUT t.id
  let t₂ :=
    if r.success then
      { t₁ with status := TaskStatus.completed
                completed_at := some endNow
                result := some (jsonDumpsStr (pyFirst r.message none "Success")) }
    else
      { t₁ with status := TaskStatus.failed
                completed_at := some endNow
                error := some (r.error.getD "Unknown error") }
  (t₂, save_task db₁ t₂)

/-- The task used to exhibit the missing timeout. -/
def c4Task : Task := qtask "t4x" TaskPriority.medium "T0"

/-- C4: the per-task timeout is configured (`Config.TASK_TIMEOUT = 300`) and
passed to the executor, but the executor ignores it entirely: its outcome
does not depend on the timeout value at all, no outcome ever carries the
error "timed out", and a task whose timeout budget is 0 — already elapsed —
still comes back `success: True` and is finalized Completed with no error,
instead of Failed with error "timed out" as the claim requires. -/
theorem c4_timeout_never_enforced :
    (∀ mode pp cmd tid tmo tmo',
      execute_command mode pp cmd tmo tid = execute_command mode pp cmd tmo' tid) ∧
    (∀ mode pp cmd tmo tid,
      (execute_command mode pp cmd tmo tid).error ≠ some "timed out") ∧
    (execute_command "mock" "/p" "cmd" 0 "t4x").success = true ∧
    (execute_task "mock" [] c4Task "S" "E").1.status = TaskStatus.completed ∧
    (execute_task "mock" [] c4Task "S" "E").1.error = none := by
  refine ⟨?_, ?_, rfl, rfl, rfl⟩
  · intro mode pp cmd tid tmo tmo'
    rfl
  · intro mode pp cmd tmo tid h
    by_cases h1 : mode = "instruction"
    · simp [execute_command, h1] at h
    · by_cases h2 : mode = "mock"
      · simp [execute_command, h1, h2] at h
      · by_cases h3 : mode = "auto"
        · simp [execute_command, h1, h2, h3] at h
        · by_cases h4 : mode = "api"
          · simp [execute_command, h1, h2, h3, h4] at h
          · simp only [execute_command, h1, h2, h3, h4, if_false,
              reduceIte] at h
            have hlen := congrArg String.length (Option.some.inj h)
            rw [String.length_append] at hlen
            have h25 : ("Unsupported CURSOR_MODE: " : String).length = 25 := by
              decide
            have h9 : ("timed out" : String).length = 9 := by decide
            rw [h25, h9] at hlen
            omega

/-- A row of the `task_templates` table (`id TEXT PRIMARY KEY`,
`name TEXT NOT NULL UNIQUE`, `use_count INTEGER DEFAULT 0`). -/
structure TaskTemplate where
  id : String
  name : String
  description : String
  command : String
  priority : String
  tags : Option String
  created_at : String
  updated_at : String
  use_count : Nat
deriving DecidableEq, Repr

/-- Result of the `save_task_template` tool. -/
inductive SaveTemplateResult
  | saved (template_id : String)
  | conflict
deriving DecidableEq, Repr

/-- `save_task_template`: one INSERT; SQLite raises `IntegrityError` when the
UNIQUE `name` (or the primary-key id) is already present, in which case
nothing is written and the duplicate-name error is returned; `use_count` is
not in the INSERT column list, so a fresh template starts at its DEFAULT
0. -/
def save_task_template (tpls : List TaskTemplate)
    (template_id name description command priority : String)
    (tags : Option String) (now : String) :
    SaveTemplateResult × List TaskTemplate :=
  if tpls.any (fun u => u.name == name || u.id == template_id) then
    (.conflict, tpls)
  else
    (.saved template_id,
     tpls ++ [{ id := template_id, name := name, description := description,
                command := command, priority := priority, tags := tags,
                created_at := now, updated_at := now, use_count := 0 }])

/-- Literal `{placeholder}` substitution applied to a template string. -/
def applyVars (s : String) (vars : List (String × String)) : String :=
  vars.foldl (fun acc kv => acc.replace ("\x7b" ++ kv.1 ++ "\x7d") kv.2) s

/-- Result of the `create_task_from_template` tool. -/
inductive CreateFromTemplateResult
  | notFound
  | invalidPriority (p : String)
  | created (t : Task)
deriving DecidableEq, Repr

/-- `create_task_from_template`: look the template up by name; increment its
`use_count` by the keyed UPDATE (committed BEFORE the priority string is
validated by `TaskPriority[priority.upper()]`, so the count moves even if
that lookup then raises); substitute variables; build and submit a Pending
task whose context records the template id and name. -/
def create_task_from_template (tpls : List TaskTemplate) (db : List TaskRow)
    (q : List Task) (template_name project_path : String)
    (vars : List (String × String)) (new_task_id now : String) :
    CreateFromTemplateResult × List TaskTemplate × List TaskRow × List Task :=
  match tpls.find? (fun u => u.name == template_name) with
  | none => (.notFound, tpls, db, q)
  | some tpl =>
    let tpls' := tpls.map (fun u =>
      if u.id = tpl.id then { u with use_count := u.use_count + 1 } else u)
    match priorityOfName tpl.priority with
    | none => (.invalidPriority tpl.priority, tpls', db, q)
    | some pr =>
      let task : Task :=
        { id := new_task_id
          project_path := project_path
          description := applyVars tpl.description vars
          command := applyVars tpl.command vars
          status := TaskStatus.pending
          priority := pr
          created_at := now
          context := some [("template_id", JVal.s tpl.id),
                           ("template_name", JVal.s tpl.name)] }
      (.created task, tpls', save_task db task, q ++ [task])

/-- Total of all templates' `use_count` columns. -/
def useCountTotal (tpls : List TaskTemplate) : Nat :=
  (tpls.map (·.use_count)).sum

theorem useCountTotal_cons (x : TaskTemplate) (l : List TaskTemplate) :
    useCountTotal (x :: l) = x.use_count + useCountTotal l := by
  simp [useCountTotal]

theorem useCountTotal_bump (tpls : List TaskTemplate) (tpl : TaskTemplate)
    (hnd : (tpls.map (·.id)).Nodup) (hmem : tpl ∈ tpls) :
    useCountTotal (tpls.map (fun u =>
      if u.id = tpl.id then { u with use_count := u.use_count + 1 } else u)) =
      useCountTotal tpls + 1 := by
  induction tpls with
  | nil => simp at hmem
  | cons u rest ih =>
      obtain ⟨hnm, hnd'⟩ :=
        List.nodup_cons.mp (show (u.id :: rest.map (·.id)).Nodup from hnd)
      rcases List.mem_cons.mp hmem with hmem' | hmem'
      · have hu : u.id = tpl.id := by rw [hmem']
        have hurest : rest.map (fun v =>
            if v.id = tpl.id then { v with use_count := v.use_count + 1 } else v) =
            rest := by
          refine (List.map_congr_left ?_).trans (List.map_id rest)
          intro v hv
          have hne : v.id ≠ tpl.id := by
            intro he
            apply hnm
            rw [hu, ← he]
            exact List.mem_map_of_mem (·.id) hv
          simp [hne]
        simp only [List.map_cons, if_pos hu]
        rw [useCountTotal_cons, useCountTotal_cons, hurest]
        have hb : ({ u with use_count := u.use_count + 1 } : TaskTemplate).use_count =
            u.use_count + 1 := rfl
        rw [hb]
        omega
      · have hne : u.id ≠ tpl.id := by
          intro he
          apply hnm
          rw [he]
          exact List.mem_map_of_mem (·.id) hmem'
        have hrec := ih hnd' hmem'
        simp only [List.map_cons, if_neg hne]
        rw [useCountTotal_cons, useCountTotal_cons, hrec]
        omega

/-- C8: saving a template under an existing name fails with the conflict
error and leaves every stored template (in particular its `use_count`)
unchanged; a successful save appends a template with `use_count = 0` and
touches no existing one; instantiating a template by name increments that
template's `use_count` by exactly 1 (total + 1, every other template
unchanged), and a lookup miss changes nothing. -/
theorem c8_template_spec (tpls : List TaskTemplate)
    (tid name d c p : String) (tags : Option String) (now : String)
    (db : List TaskRow) (q : List Task) (pp : String)
    (vars : List (String × String)) (ntid nnow : String) :
    ((∃ u ∈ tpls, u.name = name) →
      save_task_template tpls tid name d c p tags now = (.conflict, tpls)) ∧
    ((∀ u ∈ tpls, u.name ≠ name ∧ u.id ≠ tid) →
      (save_task_template tpls tid name d c p tags now).1 = .saved tid ∧
      (save_task_template tpls tid name d c p tags now).2.map (·.use_count) =
        tpls.map (·.use_count) ++ [0] ∧
      ∀ u ∈ tpls, u ∈ (save_task_template tpls tid name d c p tags now).2) ∧
    (tpls.find? (fun u => u.name == name) = none →
      create_task_from_template tpls db q name pp vars ntid nnow =
        (.notFound, tpls, db, q)) ∧
    (∀ tpl, tpls.find? (fun u => u.name == name) = some tpl →
      (tpls.map (·.id)).Nodup →
      useCountTotal
        (create_task_from_template tpls db q name pp vars ntid nnow).2.1 =
        useCountTotal tpls + 1 ∧
      (∀ u ∈ tpls, u.id ≠ tpl.id →
        u ∈ (create_task_from_template tpls db q name pp vars ntid nnow).2.1) ∧
      { tpl with use_count := tpl.use_count + 1 } ∈
        (create_task_from_template tpls db q name pp vars ntid nnow).2.1) := by
  refine ⟨?_, ?_, ?_, ?_⟩
  · rintro ⟨u, hu, hn⟩
    have hany : tpls.any (fun u => u.name == name || u.id == tid) = true :=
      List.any_eq_true.mpr ⟨u, hu, by simp [hn]⟩
    simp [save_task_template, hany]
  · intro h
    have hany : tpls.any (fun u => u.name == name || u.id == tid) = false := by
      rw [List.any_eq_false]
      intro u hu
      simp [(h u hu).1, (h u hu).2]
    refine ⟨by simp [save_task_template, hany], ?_, ?_⟩
    · simp [save_task_template, hany]
    · intro u hu
      simp [save_task_template, hany]
      exact Or.inl hu
  · intro hfind
    simp [create_task_from_template, hfind]
  · intro tpl hfind hnd
    have hmem : tpl ∈ tpls := List.mem_of_find?_eq_some hfind
    have h21 : (create_task_from_template tpls db q name pp vars ntid nnow).2.1 =
        tpls.map (fun u =>
          if u.id = tpl.id then { u with use_count := u.use_count + 1 } else u) := by
      cases hp : priorityOfName tpl.priority <;>
        simp [create_task_from_template, hfind, hp]
    rw [h21]
    refine ⟨useCountTotal_bump tpls tpl hnd hmem, ?_, ?_⟩
    · intro u hu hne
      exact List.mem_map.mpr ⟨u, hu, by simp [hne]⟩
    · exact List.mem_map.mpr ⟨tpl, hmem, by simp⟩

/-- A stored sample template. -/
def tplRefactor : TaskTemplate :=
  { id := "tpl1"
    name := "refactor"
    description := "D"
    command := "C"
    priority := "medium"
    tags := none
    created_at := "T0"
    updated_at := "T0"
    use_count := 0 }

/-- C8 witness: the specification applied at concrete inputs — a duplicate
save of the name "refactor" conflicts and leaves the store unchanged, and a
concrete instantiation raises the total use count from 0 to 1. -/
theorem c8_template_spec_witness :
    save_task_template [tplRefactor] "tpl2" "refactor" "D" "C" "medium"
      none "T1" = (.conflict, [tplRefactor]) ∧
    useCountTotal
      (create_task_from_template [tplRefactor] [] [] "refactor" "/p" []
        "n1" "T2").2.1 = useCountTotal [tplRefactor] + 1 := by
  constructor
  · exact (c8_template_spec [tplRefactor] "tpl2" "refactor" "D" "C" "medium"
      none "T1" [] [] "/p" [] "n1" "T2").1
      ⟨tplRefactor, by simp, rfl⟩
  · exact ((c8_template_spec [tplRefactor] "tpl2" "refactor" "D" "C" "medium"
      none "T1" [] [] "/p" [] "n1" "T2").2.2.2 tplRefactor (by decide)
      (by decide)).1

/-- A filesystem modification event delivered to `APIFileWatcher.on_modified`.
`datetime.now().timestamp()` values are modelled in integer milliseconds, so
the 1.0-second debounce window becomes 1000. -/
structure FileEvent where
  isDirectory : Bool
  srcPath : String
  time : Nat
deriving DecidableEq, Repr

/-- The check `'api_' in event.src_path`. -/
def hasApiMarkerAux : List Char → Bool
  | [] => false
  | c :: rest => List.isPrefixOf ['a', 'p', 'i', '_'] (c :: rest) || hasApiMarkerAux rest

/-- Substring test on the character data. -/
def hasApiMarker (s : String) : Bool := hasApiMarkerAux s.data

/-- The check `event.src_path.endswith('.json')`, on the character data. -/
def strEndsWith (s suff : String) : Bool := List.isSuffixOf suff.data s.data

/-- The three early-return guards of `on_modified`: directories, non-JSON
files and files without the `api_` marker are ignored. -/
def relevantEvent (e : FileEvent) : Bool :=
  !e.isDirectory && strEndsWith e.srcPath ".json" && hasApiMarker e.srcPath

/-- The watcher's `last_modified` dict: path of the file to the timestamp of
the last event that was let through. -/
def DebounceState := List (String × Nat)

/-- Dict lookup in `last_modified`. -/
def lookupLast : DebounceState → String → Option Nat
  | [], _ => none
  | p :: rest, k => if p.1 = k then some p.2 else lookupLast rest k

/-- Dict assignment `last_modified[path] = now`. -/
def setLast : DebounceState → String → Nat → DebounceState
  | [], k, v => [(k, v)]
  | p :: rest, k, v => if p.1 = k then (k, v) :: rest else p :: setLast rest k v

/-- `APIFileWatcher.on_modified`: filter irrelevant events, drop an event
within 1000 ms of the last one let through FOR THE SAME FILE (per-path
state), otherwise record the time and fire the callback — modelled as
emitting the path. -/
def on_modified (st : DebounceState) (e : FileEvent) : DebounceState × Option String :=
  if relevantEvent e then
    match lookupLast st e.srcPath with
    | some last =>
        if e.time - last < 1000 then (st, none)
        else (setLast st e.srcPath e.time, some e.srcPath)
    | none => (setLast st e.srcPath e.time, some e.srcPath)
  else (st, none)

/-- Deliver a sequence of events through the watcher, collecting the emitted
update events in order. -/
def runEvents : DebounceState → List FileEvent → DebounceState × List String
  | st, [] => (st, [])
  | st, e :: rest =>
    match on_modified st e with
    | (st', none) => runEvents st' rest
    | (st', some p) =>
      let r := runEvents st' rest
      (r.1, p :: r.2)

theorem lookupLast_setLast_self (st : DebounceState) (p : String) (n : Nat) :
    lookupLast (setLast st p n) p = some n := by
  induction st with
  | nil => simp [setLast, lookupLast]
  | cons q rest ih =>
      by_cases h : q.1 = p
      · simp [setLast, lookupLast, h]
      · simp [setLast, lookupLast, h, ih]

theorem lookupLast_setLast_ne (st : DebounceState) (p p' : String) (n : Nat)
    (h : p' ≠ p) : lookupLast (setLast st p n) p' = lookupLast st p' := by
  have hp : p ≠ p' := h.symm
  induction st with
  | nil => simp [setLast, lookupLast, hp]
  | cons q rest ih =>
      by_cases hq : q.1 = p
      · by_cases hq' : q.1 = p'
        · exact absurd (hq' ▸ hq) hp.symm
        · simp [setLast, lookupLast, hq, hq', hp]
      · simp [setLast, lookupLast, hq, ih]

theorem on_modified_fst_lookup_ne (st : DebounceState) (e : FileEvent)
    (p : String) (h : e.srcPath ≠ p) :
    lookupLast (on_modified st e).1 p = lookupLast st p := by
  unfold on_modified
  by_cases hrel : relevantEvent e = true
  · rw [if_pos hrel]
    cases hl : lookupLast st e.srcPath with
    | none => exact lookupLast_setLast_ne st e.srcPath p e.time h.symm
    | some last =>
        by_cases hd : e.time - last < 1000
        · simp [hd]
        · simp [hd]
          exact lookupLast_setLast_ne st e.srcPath p e.time h.symm
  · rw [if_neg hrel]

theorem on_modified_snd (st : DebounceState) (e : FileEvent) :
    (on_modified st e).2 = none ∨ (on_modified st e).2 = some e.srcPath := by
  unfold on_modified
  by_cases hrel : relevantEvent e = true
  · rw [if_pos hrel]
    cases hl : lookupLast st e.srcPath with
    | none => exact Or.inr rfl
    | some last =>
        by_cases hd : e.time - last < 1000
        · simp [hd]
        · simp [hd]
  · rw [if_neg hrel]
    exact Or.inl rfl

theorem runEvents_append (st : DebounceState) (l₁ l₂ : List FileEvent) :
    runEvents st (l₁ ++ l₂) =
      ((runEvents (runEvents st l₁).1 l₂).1,
       (runEvents st l₁).2 ++ (runEvents (runEvents st l₁).1 l₂).2) := by
  induction l₁ generalizing st with
  | nil => simp [runEvents]
  | cons e rest ih =>
      show runEvents st (e :: (rest ++ l₂)) = _
      simp only [runEvents]
      cases hm : on_modified st e with
      | mk st' out =>
          cases out with
          | none => simpa using ih st'
          | some pp => simp [ih st']

/-- Processing events that never touch path `p` leaves `p`'s debounce entry
unchanged and emits nothing for `p`. -/
theorem runEvents_no_path (st : DebounceState) (es : List FileEvent)
    (p : String) (hne : ∀ e ∈ es, e.srcPath ≠ p) :
    lookupLast (runEvents st es).1 p = lookupLast st p ∧
    (runEvents st es).2.count p = 0 := by
  induction es generalizing st with
  | nil => exact ⟨rfl, rfl⟩
  | cons e rest ih =>
      have hep : e.srcPath ≠ p := hne e (List.mem_cons_self _ _)
      have hrest : ∀ e' ∈ rest, e'.srcPath ≠ p :=
        fun e' he' => hne e' (List.mem_cons_of_mem _ he')
      have hlook := on_modified_fst_lookup_ne st e p hep
      have hsnd := on_modified_snd st e
      simp only [runEvents]
      cases hm : on_modified st e with
      | mk st' out =>
          rw [hm] at hlook hsnd
          cases out with
          | none =>
              exact ⟨(ih st' hrest).1.trans hlook, (ih st' hrest).2⟩
          | some pp =>
              have hpp : pp = e.srcPath := by
                rcases hsnd with h | h
                · exact absurd h (by simp)
                · exact Option.some.inj h
              refine ⟨(ih st' hrest).1.trans hlook, ?_⟩
              simp only [List.count_cons]
              rw [(ih st' hrest).2]
              simp [hpp, hep]

/-- Once `p`'s debounce entry holds `t0`, any further events for `p` within
1000 ms of `t0` are all dropped: nothing more is emitted for `p`. -/
theorem runEvents_in_window (st : DebounceState) (es : List FileEvent)
    (p : String) (t0 : Nat) (hlast : lookupLast st p = some t0)
    (hwin : ∀ e ∈ es, e.srcPath = p → e.time < t0 + 1000) :
    (runEvents st es).2.count p = 0 := by
  induction es generalizing st with
  | nil => rfl
  | cons e rest ih =>
      have hrest : ∀ e' ∈ rest, e'.srcPath = p → e'.time < t0 + 1000 :=
        fun e' he' => hwin e' (List.mem_cons_of_mem _ he')
      by_cases hp : e.srcPath = p
      · have htime : e.time < t0 + 1000 := hwin e (List.mem_cons_self _ _) hp
        by_cases hrel : relevantEvent e = true
        · have htt : e.time - t0 < 1000 := by omega
          have hdrop : on_modified st e = (st, none) := by
            simp [on_modified, hrel, hp, hlast, htt]
          simp only [runEvents, hdrop]
          exact ih st hlast hrest
        · have hdrop : on_modified st e = (st, none) := by
            unfold on_modified
            rw [if_neg hrel]
          simp only [runEvents, hdrop]
          exact ih st hlast hrest
      · have hlook := on_modified_fst_lookup_ne st e p hp
        have hsnd := on_modified_snd st e
        simp only [runEvents]
        cases hm : on_modified st e with
        | mk st' out =>
            rw [hm] at hlook hsnd
            have hlast' : lookupLast st' p = some t0 := hlook.trans hlast
            cases out with
            | none => exact ih st' hlast' hrest
            | some pp =>
                have hpp : pp = e.srcPath := by
                  rcases hsnd with h | h
                  · exact absurd h (by simp)
                  · exact Option.some.inj h
                simp only [List.count_cons]
                rw [ih st' hlast' hrest]
                simp [hpp, hp]

/-- C9: repeated notifications for the same progress-record file within the
1-second debounce window collapse to a single internal update event, with
independent per-file state: with no prior entry for file `p`, a burst whose
first `p`-event is relevant and whose later `p`-events all fall strictly
inside the 1000 ms window after it produces EXACTLY ONE emitted event for
`p`, no matter which events for other files are interleaved before or
after. -/
theorem c9_debounce_single_event (st₀ : DebounceState)
    (pre post : List FileEvent) (e₀ : FileEvent) (p : String)
    (hpre : ∀ e ∈ pre, e.srcPath ≠ p)
    (hp : e₀.srcPath = p)
    (hrel : relevantEvent e₀ = true)
    (h₀ : lookupLast st₀ p = none)
    (hwin : ∀ e ∈ post, e.srcPath = p → e.time < e₀.time + 1000) :
    (runEvents st₀ (pre ++ e₀ :: post)).2.count p = 1 := by
  rw [runEvents_append, List.count_append]
  obtain ⟨hkeep, hzero⟩ := runEvents_no_path st₀ pre p hpre
  rw [hzero]
  have h₁ : lookupLast (runEvents st₀ pre).1 p = none := hkeep.trans h₀
  have hfire : on_modified (runEvents st₀ pre).1 e₀ =
      (setLast (runEvents st₀ pre).1 e₀.srcPath e₀.time, some e₀.srcPath) := by
    unfold on_modified
    rw [if_pos hrel, hp, h₁]
  simp only [runEvents, hfire]
  have hlast : lookupLast
      (setLast (runEvents st₀ pre).1 e₀.srcPath e₀.time) p = some e₀.time := by
    rw [hp]
    exact lookupLast_setLast_self _ p e₀.time
  have hc0 := runEvents_in_window
    (setLast (runEvents st₀ pre).1 e₀.srcPath e₀.time) post p e₀.time hlast hwin
  simp only [List.count_cons]
  rw [hc0]
  simp [hp]

/-- A write event to one progress-record file. -/
def apiWrite (t : Nat) : FileEvent :=
  { isDirectory := false
    srcPath := "/p/.cursor-tasks/api_t1.json"
    time := t }

/-- C9 witness: three rapid writes to the same `api_*.json` file at 0 ms,
200 ms and 450 ms — all within 500 ms — produce exactly one internal update
event. -/
theorem c9_debounce_single_event_witness :
    ((runEvents [] [apiWrite 0, apiWrite 200, apiWrite 450]).2.count
      "/p/.cursor-tasks/api_t1.json") = 1 :=
  c9_debounce_single_event [] [] [apiWrite 200, apiWrite 450] (apiWrite 0)
    "/p/.cursor-tasks/api_t1.json"
    (by intro e he; simp at he) rfl (by decide) rfl (by decide)

end Orch
